import Mathlib

/-!
Shallow embedding of the Gateway WebSocket client
(`src/extensions/dingtalk/src/gateway-ws.ts`).

The client is modelled as an explicit state machine (`ClientState`) whose
transition functions mirror the methods of `GatewayWsClient`.  The
`chatStream` async generator is modelled under the single-threaded
cooperative schedule of the runtime: each inbound chat event runs the
registered listener, after which the suspended consume loop is woken once
(`loopWake`); when the loop exits, any undelivered suffix is flushed.
Strings are modelled as `List Char`; timestamps as `Int` (milliseconds);
the `Map` objects as association lists with unique keys.
-/

namespace GatewayWs

/-- Text is modelled as a list of characters. -/
abbrev Str := List Char

/-- One entry of `message.content` of a chat event. -/
structure ContentPart where
  type : String
  text : Option Str
deriving DecidableEq

/-- The `message` field of a chat event. -/
structure ChatMessage where
  role : String
  content : List ContentPart
deriving DecidableEq

/-- The `state` field of a chat event. -/
inductive ChatState
  | delta
  | final
  | aborted
  | error
deriving DecidableEq

/-- A chat event (`ChatEvent` in the source). -/
structure ChatEvent where
  runId : String
  sessionKey : String
  seq : Int
  state : ChatState
  message : Option ChatMessage
  errorMessage : Option String
deriving DecidableEq

/-- A cached session progress record (`SessionProgress` in the source). -/
structure SessionProgress where
  runId : String
  sessionKey : String
  accumulated : Str
  lastSeq : Int
  updatedAt : Int
deriving DecidableEq

/-- The progress cache, a `Map` keyed by session key. -/
abbrev Cache := List (String × SessionProgress)

/-- Model of `Map.set`: replace any existing binding of the key. -/
def cacheSet (c : Cache) (k : String) (v : SessionProgress) : Cache :=
  (k, v) :: c.filter (fun p => p.1 != k)

/-- Model of `Map.delete`. -/
def cacheDelete (c : Cache) (k : String) : Cache :=
  c.filter (fun p => p.1 != k)

/-- Model of `Map.get`. -/
def cacheGet (c : Cache) (k : String) : Option SessionProgress :=
  (c.find? (fun p => p.1 == k)).map (·.2)

/-- The constant `PROGRESS_TTL_MS` (5 minutes). -/
def PROGRESS_TTL_MS : Int := 5 * 60 * 1000

/-- Model of `cleanupExpiredProgress`: delete every entry strictly older than the TTL. -/
def cleanupExpiredProgress (now : Int) (c : Cache) : Cache :=
  c.filter (fun p => !decide (now - p.2.updatedAt > PROGRESS_TTL_MS))

/-- Model of `saveProgress`: upsert, stamped with the current time. -/
def saveProgress (now : Int) (c : Cache) (sessionKey runId : String)
    (accumulated : Str) (seq : Int) : Cache :=
  cacheSet c sessionKey ⟨runId, sessionKey, accumulated, seq, now⟩

/-- Model of `getProgress`: sweep expired entries, then look the key up. -/
def getProgress (now : Int) (c : Cache) (sessionKey : String) :
    Cache × Option SessionProgress :=
  let c1 := cleanupExpiredProgress now c
  (c1, cacheGet c1 sessionKey)

/-- Model of `clearProgress`. -/
def clearProgress (c : Cache) (sessionKey : String) : Cache :=
  cacheDelete c sessionKey

/-! ### The `chatStream` generator -/

/-- Local state of one `chatStream` call. -/
structure StreamState where
  accumulated : Str
  lastYieldedLength : Nat
  done : Bool
  error : Option String
  disconnectedWithData : Bool
  hasNewData : Bool
  lastEventSeq : Int
deriving DecidableEq

/-- Initial local state of a `chatStream` call. -/
def initStreamState : StreamState :=
  { accumulated := []
    lastYieldedLength := 0
    done := false
    error := none
    disconnectedWithData := false
    hasNewData := false
    lastEventSeq := 0 }

/-- Text extraction of the listener:
`evt.message?.content?.filter(c => c.type === "text").map(c => c.text ?? "").join("") ?? ""`. -/
def extractText (evt : ChatEvent) : Str :=
  match evt.message with
  | none => []
  | some m =>
      ((m.content.filter (fun c => c.type == "text")).map
        (fun c => c.text.getD [])).flatten

/-- Result of one listener invocation. -/
structure ListenerResult where
  state : StreamState
  cache : Cache
deriving DecidableEq

/-- The chat listener registered by `chatStream` for its run id,
processing one event. -/
def listenerStep (now : Int) (sessionKey runId : String)
    (st : StreamState) (cache : Cache) (evt : ChatEvent) : ListenerResult :=
  let st := { st with lastEventSeq := evt.seq }
  let r1 : ListenerResult :=
    if evt.state = .delta ∨ evt.state = .final then
      let text := extractText evt
      if text.length > st.accumulated.length then
        { state := { st with accumulated := text, hasNewData := true }
          cache := saveProgress now cache sessionKey runId text st.lastEventSeq }
      else { state := st, cache := cache }
    else { state := st, cache := cache }
  let r2 : ListenerResult :=
    if evt.state = .final ∨ evt.state = .aborted then
      { state := { r1.state with done := true }
        cache := clearProgress r1.cache sessionKey }
    else r1
  if evt.state = .error then
    if r2.state.accumulated.length > 0 then
      { r2 with state := { r2.state with disconnectedWithData := true, done := true } }
    else
      { r2 with state :=
          { r2.state with
              error := some (evt.errorMessage.getD "chat error"), done := true } }
  else r2

/-- Result of one wake-up of the consume loop. -/
structure WakeResult where
  yields : List Str
  state : StreamState
  thrown : Option String
deriving DecidableEq

/-- One resumption of the consume loop of `chatStream` after the awaited
promise resolves: throw if an error is recorded with nothing accumulated,
otherwise yield the undelivered suffix when new data is available. -/
def loopWake (st : StreamState) : WakeResult :=
  if st.error.isSome ∧ st.accumulated.length = 0 then
    { yields := [], state := st, thrown := st.error }
  else if st.hasNewData ∧ st.accumulated.length > st.lastYieldedLength then
    { yields := [st.accumulated.drop st.lastYieldedLength]
      state := { st with lastYieldedLength := st.accumulated.length, hasNewData := false }
      thrown := none }
  else { yields := [], state := st, thrown := none }

/-- Outcome of running the listener/consume loop over a list of events. -/
structure RunResult where
  yields : List Str
  state : StreamState
  cache : Cache
  thrown : Option String
deriving DecidableEq

/-- Deliver the events one at a time to the listener, waking the consume
loop once after each (the cooperative schedule with a prompt consumer);
stop as soon as the loop throws or observes `done`. -/
def runEvents (now : Int) (sessionKey runId : String) :
    StreamState → Cache → List ChatEvent → RunResult
  | st, cache, [] => ⟨[], st, cache, none⟩
  | st, cache, evt :: rest =>
    let l := listenerStep now sessionKey runId st cache evt
    let w := loopWake l.state
    match w.thrown with
    | some e => ⟨w.yields, w.state, l.cache, some e⟩
    | none =>
      if w.state.done then ⟨w.yields, w.state, l.cache, none⟩
      else
        let r := runEvents now sessionKey runId w.state l.cache rest
        ⟨w.yields ++ r.yields, r.state, r.cache, r.thrown⟩

/-- A full `chatStream` call (after the `chat.send` request was
acknowledged): look up saved progress (which sweeps expired entries),
process the delivered events, and flush any undelivered suffix once the
loop has exited. -/
def chatStream (now : Int) (cache0 : Cache) (sessionKey runId : String)
    (events : List ChatEvent) : RunResult :=
  let cache1 := (getProgress now cache0 sessionKey).1
  let r := runEvents now sessionKey runId initStreamState cache1 events
  if r.thrown.isSome then r
  else if r.state.done then
    if r.state.accumulated.length > r.state.lastYieldedLength then
      { r with yields := r.yields ++ [r.state.accumulated.drop r.state.lastYieldedLength] }
    else r
  else r

/-! ### Client state machine -/

/-- A pending request table entry (`Pending` in the source, together with
the data fixed at registration time: the request's method and the timeout
duration installed by `setTimeout`). -/
structure PendingEntry where
  method : String
  timeoutMs : Nat
deriving DecidableEq

/-- The pending request table, keyed by correlation id. -/
abbrev PendingMap := List (String × PendingEntry)

/-- The mutable fields of `GatewayWsClient`.  `wsReady` stands for
"`this.ws` is non-null and its `readyState` is `OPEN`"; `connectPromise`
holds the identifier of the connect attempt currently in flight;
`reconnectTimer` records whether a reconnect timer is scheduled. -/
structure ClientState where
  wsReady : Bool
  connected : Bool
  closed : Bool
  disconnected : Bool
  reconnectTimer : Bool
  backoffMs : Nat
  connectPromise : Option Nat
  nextAttemptId : Nat
  lastSeq : Option Int
  pending : PendingMap
  chatListeners : List String
  sessionProgress : Cache
deriving DecidableEq

/-- A freshly constructed client. -/
def initClient : ClientState :=
  { wsReady := false
    connected := false
    closed := false
    disconnected := false
    reconnectTimer := false
    backoffMs := 1000
    connectPromise := none
    nextAttemptId := 0
    lastSeq := none
    pending := []
    chatListeners := []
    sessionProgress := [] }

/-- A rejection handed to a pending request's caller. -/
structure Rejection where
  id : String
  message : String
deriving DecidableEq

/-- Model of `flushPending(err)`: reject every pending request with `err` and clear
the table. -/
def flushPending (st : ClientState) (msg : String) : ClientState × List Rejection :=
  ({ st with pending := [] }, st.pending.map (fun p => ⟨p.1, msg⟩))

/-- Model of `scheduleReconnect()`: a no-op when a timer is already scheduled;
otherwise schedule one timer for `backoffMs` milliseconds and double the
backoff, capped at 30000.  The second component is the delay of the timer
scheduled by this call, if any. -/
def scheduleReconnect (st : ClientState) : ClientState × Option Nat :=
  if st.reconnectTimer then (st, none)
  else
    ({ st with reconnectTimer := true, backoffMs := min (st.backoffMs * 2) 30000 },
     some st.backoffMs)

/-- Result of `handleClose()`: the new state, the rejections of the
flushed pending requests, the synthetic `error` chat events delivered to
the registered listeners, and the delay of the reconnect timer scheduled,
if any. -/
structure CloseOutcome where
  state : ClientState
  rejections : List Rejection
  notices : List ChatEvent
  scheduledDelay : Option Nat
deriving DecidableEq

/-- Model of `handleClose()`: mark disconnected, flush pending requests with a
"connection closed" error, notify every chat listener with a synthetic
`error` event, and schedule a reconnect unless the client is closed. -/
def handleClose (st : ClientState) : CloseOutcome :=
  let st1 := { st with connected := false, disconnected := true, wsReady := false }
  let fp := flushPending st1 "connection closed"
  let notices := fp.1.chatListeners.map (fun runId =>
    { runId := runId
      sessionKey := ""
      seq := -1
      state := ChatState.error
      message := none
      errorMessage := some "WebSocket connection closed unexpectedly" })
  if fp.1.closed then ⟨fp.1, fp.2, notices, none⟩
  else
    let sr := scheduleReconnect fp.1
    ⟨sr.1, fp.2, notices, sr.2⟩

/-- Model of `close()`: mark closed, cancel any reconnect timer, tear the socket
down, and reject all pending requests with a "client closed" error. -/
def close (st : ClientState) : ClientState × List Rejection :=
  flushPending
    { st with closed := true, reconnectTimer := false, wsReady := false }
    "client closed"

/-- Model of `isConnected()`. -/
def isConnected (st : ClientState) : Bool :=
  st.connected

/-- What a caller of `connect()` observes. -/
inductive ConnectOutcome
  | noop
  | failClosed (msg : String)
  | join (attempt : Nat)
  | start (attempt : Nat)
deriving DecidableEq

/-- Model of `connect()`: return at once when already connected; throw when the
client was explicitly closed; join the connect attempt already in flight
when one exists; otherwise begin a fresh attempt (`doConnect`), which
creates a socket that is not yet open. -/
def connect (st : ClientState) : ClientState × ConnectOutcome :=
  if st.connected then (st, .noop)
  else if st.closed then (st, .failClosed "client is closed")
  else
    match st.connectPromise with
    | some k => (st, .join k)
    | none =>
      let k := st.nextAttemptId
      ({ st with
          connectPromise := some k
          nextAttemptId := k + 1
          wsReady := false
          disconnected := false }, .start k)

/-- A connect attempt succeeds: the socket opens and the handshake request
completes, so the client is connected, the backoff resets to 1000 ms and
the in-flight attempt is cleared. -/
def doConnectSucceed (st : ClientState) : ClientState :=
  if st.connectPromise.isSome then
    { st with wsReady := true, connected := true, backoffMs := 1000, connectPromise := none }
  else st

/-- A connect attempt fails before opening: the in-flight attempt is
cleared (the socket-close event that follows is `handleClose`). -/
def doConnectFail (st : ClientState) : ClientState :=
  { st with connectPromise := none }

/-- The reconnect timer fires: the timer slot is cleared, then
`connect()` runs. -/
def reconnectTimerFire (st : ClientState) : ClientState × ConnectOutcome :=
  connect { st with reconnectTimer := false }

/-- Model of `request(method)`: throw "not connected" when the socket is not open;
otherwise register a pending entry with a 30 s timeout under the supplied
(fresh) correlation id and write the request frame. -/
def request (st : ClientState) (id method : String) : Except String ClientState :=
  if !st.wsReady then .error "not connected"
  else .ok { st with pending := (id, ⟨method, 30000⟩) :: st.pending }

/-- The 30 s timeout of a request fires (it only can while the entry is
still pending; a response clears the timer): the entry is removed and the
caller rejected with a timeout error naming the method. -/
def requestTimeoutFire (st : ClientState) (id : String) : ClientState × Option Rejection :=
  match st.pending.find? (fun p => p.1 == id) with
  | some p =>
    ({ st with pending := st.pending.filter (fun q => q.1 != id) },
     some ⟨id, "request timeout: " ++ p.2.method⟩)
  | none => (st, none)

/-- A response frame (`{type:"res", id, ok, payload?, error?}`); the
payload is abstracted by a tag. -/
structure ResFrame where
  id : String
  ok : Bool
  payloadTag : Nat
  errorMessage : Option String
deriving DecidableEq

/-- What the correlator does with a response frame. -/
inductive ResOutcome
  | resolved (payload : Nat)
  | rejected (message : String)
deriving DecidableEq

/-- Model of `handleMessage` on a response frame: look the pending entry up by id;
when found, remove it and resolve or reject its caller; otherwise drop the
frame silently. -/
def handleResFrame (st : ClientState) (f : ResFrame) : ClientState × Option ResOutcome :=
  match st.pending.find? (fun p => p.1 == f.id) with
  | some _ =>
    let st1 := { st with pending := st.pending.filter (fun q => q.1 != f.id) }
    if f.ok then (st1, some (.resolved f.payloadTag))
    else (st1, some (.rejected (f.errorMessage.getD "unknown error")))
  | none => (st, none)

/-- An event frame (`{type:"event", event, seq?, payload}`). -/
structure EventFrame where
  event : String
  seq : Option Int
  payload : ChatEvent
deriving DecidableEq

/-- Model of `handleMessage` on an event frame: update the sequence cursor
(logging a gap when the new sequence exceeds cursor + 1) and deliver chat
events to the listener registered for the payload's run id.  Returns the
new state, whether a gap was logged, and the payload delivered, if any. -/
def handleEventFrame (st : ClientState) (f : EventFrame) :
    ClientState × Bool × Option ChatEvent :=
  let cur : ClientState × Bool :=
    match f.seq with
    | some s =>
      let gap :=
        match st.lastSeq with
        | some l => decide (s > l + 1)
        | none => false
      ({ st with lastSeq := some s }, gap)
    | none => (st, false)
  let delivered :=
    if f.event = "chat" ∧ f.payload.runId ∈ cur.1.chatListeners then some f.payload
    else none
  (cur.1, cur.2, delivered)

/-- Process a list of event frames in arrival order, collecting the gap
flags and the deliveries. -/
def handleEventFrames (st : ClientState) :
    List EventFrame → ClientState × List Bool × List (Option ChatEvent)
  | [] => (st, [], [])
  | f :: rest =>
    let h := handleEventFrame st f
    let r := handleEventFrames h.1 rest
    (r.1, h.2.1 :: r.2.1, h.2.2 :: r.2.2)

/-! ### Reconnect attempt cycles -/

/-- One failed reconnect attempt: the scheduled timer fires (running
`connect()`, which begins a fresh attempt), the attempt fails, the socket
emits `close`, and `handleClose` schedules the next timer.  The second
component is the delay of that next timer. -/
def failedReconnectCycle (st : ClientState) : ClientState × Option Nat :=
  let st1 := (reconnectTimerFire st).1
  let st2 := doConnectFail st1
  let h := handleClose st2
  (h.state, h.scheduledDelay)

/-- Iterate `n` failed reconnect attempts, collecting the scheduled
delays. -/
def failedReconnectAttempts : ClientState → Nat → ClientState × List Nat
  | st, 0 => (st, [])
  | st, n + 1 =>
    let c := failedReconnectCycle st
    let r := failedReconnectAttempts c.1 n
    (r.1, c.2.toList ++ r.2)

/-- The delays scheduled from an unexpected disconnect followed by `n`
failed reconnect attempts: the delay of the timer scheduled by the initial
`handleClose`, then the delay scheduled after each failure. -/
def disconnectThenFailures (st : ClientState) (n : Nat) : List Nat :=
  let h := handleClose st
  h.scheduledDelay.toList ++ (failedReconnectAttempts h.state n).2

/-- The doubling-capped backoff progression starting at `b`. -/
def doubleCapSeq (b : Nat) : Nat → List Nat
  | 0 => []
  | n + 1 => b :: doubleCapSeq (min (b * 2) 30000) n

/-! ### Action traces -/

/-- Every externally triggerable transition of the client; used to reason
about whole executions. -/
inductive Act
  | connectCall
  | connectSucceedAct
  | connectFailAct
  | socketClosedAct
  | reconnectTimerFireAct
  | closeCall
  | requestCall (id method : String)
  | requestTimeoutAct (id : String)
  | resFrameAct (f : ResFrame)
  | eventFrameAct (f : EventFrame)
  | listenerRegister (runId : String)
  | listenerRemove (runId : String)

/-- Apply one action; the second component is the delay of a reconnect
timer scheduled by the action, if any. -/
def applyAct (st : ClientState) : Act → ClientState × Option Nat
  | .connectCall => ((connect st).1, none)
  | .connectSucceedAct => (doConnectSucceed st, none)
  | .connectFailAct => (doConnectFail st, none)
  | .socketClosedAct =>
    let h := handleClose st
    (h.state, h.scheduledDelay)
  | .reconnectTimerFireAct => ((reconnectTimerFire st).1, none)
  | .closeCall => ((close st).1, none)
  | .requestCall id method =>
    match request st id method with
    | .ok st1 => (st1, none)
    | .error _ => (st, none)
  | .requestTimeoutAct id => ((requestTimeoutFire st id).1, none)
  | .resFrameAct f => ((handleResFrame st f).1, none)
  | .eventFrameAct f => ((handleEventFrame st f).1, none)
  | .listenerRegister runId => ({ st with chatListeners := runId :: st.chatListeners }, none)
  | .listenerRemove runId =>
    ({ st with chatListeners := st.chatListeners.filter (fun r => r != runId) }, none)

/-- Apply a list of actions, collecting every reconnect delay scheduled
along the way. -/
def applyTrace : ClientState → List Act → ClientState × List Nat
  | st, [] => (st, [])
  | st, a :: rest =>
    let s := applyAct st a
    let r := applyTrace s.1 rest
    (r.1, s.2.toList ++ r.2)

/-! ### Protocol-side growth of the accumulated transcript -/

/-- The accumulated text after the listener saw `evt`
(the replace-when-strictly-longer rule of the listener). -/
def acceptText (acc : Str) (evt : ChatEvent) : Str :=
  if (evt.state = .delta ∨ evt.state = .final) ∧ (extractText evt).length > acc.length
  then extractText evt else acc

/-- Predicate `extensionOk acc events` holds when every event text that the
listener would accept (strictly longer than the accumulated text at that
point) extends that accumulated text, i.e. the peer really sends a
growing full-transcript-so-far. -/
def extensionOk : Str → List ChatEvent → Bool
  | _, [] => true
  | acc, evt :: rest =>
    (if (evt.state = .delta ∨ evt.state = .final) ∧ (extractText evt).length > acc.length
     then decide ((extractText evt).take acc.length = acc)
     else true)
    && extensionOk (acceptText acc evt) rest

/-! ### Cache lemmas -/

theorem cacheGet_set_self (c : Cache) (k : String) (v : SessionProgress) :
    cacheGet (cacheSet c k v) k = some v := by
  unfold cacheGet cacheSet
  rw [List.find?_cons_of_pos _ (by simp)]
  rfl

theorem cacheGet_delete_self (c : Cache) (k : String) :
    cacheGet (cacheDelete c k) k = none := by
  unfold cacheGet cacheDelete
  induction c with
  | nil => rfl
  | cons p rest ih =>
    by_cases h : p.1 = k
    · simp only [List.filter_cons, h, bne_self_eq_false, Bool.false_eq_true, if_false]
      exact ih
    · have hb : (p.1 != k) = true := by simpa using h
      simp only [List.filter_cons, hb, if_true]
      rw [List.find?_cons_of_neg _ (by simpa using h)]
      exact ih

theorem cacheGet_eq_none_of_not_mem (c : Cache) (k : String)
    (h : k ∉ c.map Prod.fst) : cacheGet c k = none := by
  unfold cacheGet
  rw [List.find?_eq_none.mpr]
  · rfl
  · intro p hp hbeq
    exact h (List.mem_map.mpr ⟨p, hp, by simpa using hbeq.symm⟩)

/-! ### Listener case lemmas -/

theorem listenerStep_delta (now : Int) (sk runId : String) (st : StreamState)
    (cache : Cache) (evt : ChatEvent) (h : evt.state = .delta) :
    listenerStep now sk runId st cache evt =
      if (extractText evt).length > st.accumulated.length then
        { state := { st with lastEventSeq := evt.seq, accumulated := extractText evt,
                             hasNewData := true }
          cache := saveProgress now cache sk runId (extractText evt) evt.seq }
      else { state := { st with lastEventSeq := evt.seq }, cache := cache } := by
  simp [listenerStep, h]

theorem listenerStep_final (now : Int) (sk runId : String) (st : StreamState)
    (cache : Cache) (evt : ChatEvent) (h : evt.state = .final) :
    listenerStep now sk runId st cache evt =
      if (extractText evt).length > st.accumulated.length then
        { state := { st with lastEventSeq := evt.seq, accumulated := extractText evt,
                             hasNewData := true, done := true }
          cache := clearProgress
            (saveProgress now cache sk runId (extractText evt) evt.seq) sk }
      else { state := { st with lastEventSeq := evt.seq, done := true }
             cache := clearProgress cache sk } := by
  simp [listenerStep, h]
  split <;> rfl

theorem listenerStep_aborted (now : Int) (sk runId : String) (st : StreamState)
    (cache : Cache) (evt : ChatEvent) (h : evt.state = .aborted) :
    listenerStep now sk runId st cache evt =
      { state := { st with lastEventSeq := evt.seq, done := true }
        cache := clearProgress cache sk } := by
  simp [listenerStep, h]

theorem listenerStep_error (now : Int) (sk runId : String) (st : StreamState)
    (cache : Cache) (evt : ChatEvent) (h : evt.state = .error) :
    listenerStep now sk runId st cache evt =
      if st.accumulated.length > 0 then
        { state := { st with lastEventSeq := evt.seq, disconnectedWithData := true,
                             done := true }
          cache := cache }
      else
        { state := { st with lastEventSeq := evt.seq,
                             error := some (evt.errorMessage.getD "chat error"),
                             done := true }
          cache := cache } := by
  simp [listenerStep, h]

/-! ### Run lemmas -/

theorem runEvents_append (now : Int) (sk runId : String) (l₁ l₂ : List ChatEvent) :
    ∀ (st : StreamState) (cache : Cache),
    (runEvents now sk runId st cache l₁).thrown = none →
    (runEvents now sk runId st cache l₁).state.done = false →
    runEvents now sk runId st cache (l₁ ++ l₂) =
      ⟨(runEvents now sk runId st cache l₁).yields ++
        (runEvents now sk runId (runEvents now sk runId st cache l₁).state
          (runEvents now sk runId st cache l₁).cache l₂).yields,
       (runEvents now sk runId (runEvents now sk runId st cache l₁).state
          (runEvents now sk runId st cache l₁).cache l₂).state,
       (runEvents now sk runId (runEvents now sk runId st cache l₁).state
          (runEvents now sk runId st cache l₁).cache l₂).cache,
       (runEvents now sk runId (runEvents now sk runId st cache l₁).state
          (runEvents now sk runId st cache l₁).cache l₂).thrown⟩ := by
  induction l₁ with
  | nil => intro st cache _ _; simp [runEvents]
  | cons evt rest ih =>
    intro st cache h1 h2
    simp only [List.cons_append, runEvents] at h1 h2 ⊢
    cases hw : (loopWake (listenerStep now sk runId st cache evt).state).thrown with
    | some e => rw [hw] at h1; exact absurd h1 (by simp)
    | none =>
      simp only [hw] at h1 h2 ⊢
      by_cases hd : (loopWake (listenerStep now sk runId st cache evt).state).state.done = true
      · rw [if_pos hd] at h2
        exact absurd h2 (by simp [hd])
      · simp only [if_neg hd] at h1 h2 ⊢
        simp only [List.append_eq] at h1 h2 ⊢
        rw [ih _ _ h1 h2]
        simp [List.append_assoc]

theorem loopWake_rest (st : StreamState) (he : st.error = none)
    (hn : st.hasNewData = false) : loopWake st = ⟨[], st, none⟩ := by
  simp [loopWake, he, hn]

theorem loopWake_fresh (st : StreamState) (he : st.error = none)
    (hn : st.hasNewData = true)
    (hgt : st.accumulated.length > st.lastYieldedLength) :
    loopWake st =
      ⟨[st.accumulated.drop st.lastYieldedLength],
       { st with lastYieldedLength := st.accumulated.length, hasNewData := false },
       none⟩ := by
  simp [loopWake, he, hn, hgt]

theorem loopWake_throw (st : StreamState) (m : String) (he : st.error = some m)
    (ha : st.accumulated = []) : loopWake st = ⟨[], st, some m⟩ := by
  simp [loopWake, he, ha]

theorem runEvents_cons_throw (now : Int) (sk runId : String) (st : StreamState)
    (cache : Cache) (evt : ChatEvent) (rest : List ChatEvent) (e : String)
    (hw : (loopWake (listenerStep now sk runId st cache evt).state).thrown = some e) :
    runEvents now sk runId st cache (evt :: rest) =
      ⟨(loopWake (listenerStep now sk runId st cache evt).state).yields,
       (loopWake (listenerStep now sk runId st cache evt).state).state,
       (listenerStep now sk runId st cache evt).cache, some e⟩ := by
  simp only [runEvents, hw]

theorem runEvents_cons_done (now : Int) (sk runId : String) (st : StreamState)
    (cache : Cache) (evt : ChatEvent) (rest : List ChatEvent)
    (hw : (loopWake (listenerStep now sk runId st cache evt).state).thrown = none)
    (hd : (loopWake (listenerStep now sk runId st cache evt).state).state.done = true) :
    runEvents now sk runId st cache (evt :: rest) =
      ⟨(loopWake (listenerStep now sk runId st cache evt).state).yields,
       (loopWake (listenerStep now sk runId st cache evt).state).state,
       (listenerStep now sk runId st cache evt).cache, none⟩ := by
  simp only [runEvents, hw, hd, if_true]

theorem runEvents_cons_go (now : Int) (sk runId : String) (st : StreamState)
    (cache : Cache) (evt : ChatEvent) (rest : List ChatEvent)
    (hw : (loopWake (listenerStep now sk runId st cache evt).state).thrown = none)
    (hd : (loopWake (listenerStep now sk runId st cache evt).state).state.done = false) :
    runEvents now sk runId st cache (evt :: rest) =
      ⟨(loopWake (listenerStep now sk runId st cache evt).state).yields ++
        (runEvents now sk runId
          (loopWake (listenerStep now sk runId st cache evt).state).state
          (listenerStep now sk runId st cache evt).cache rest).yields,
       (runEvents now sk runId
          (loopWake (listenerStep now sk runId st cache evt).state).state
          (listenerStep now sk runId st cache evt).cache rest).state,
       (runEvents now sk runId
          (loopWake (listenerStep now sk runId st cache evt).state).state
          (listenerStep now sk runId st cache evt).cache rest).cache,
       (runEvents now sk runId
          (loopWake (listenerStep now sk runId st cache evt).state).state
          (listenerStep now sk runId st cache evt).cache rest).thrown⟩ := by
  simp only [runEvents, hw, hd, Bool.false_eq_true, if_false]

theorem runEvents_inv (now : Int) (sk runId : String) (events : List ChatEvent) :
    ∀ (st : StreamState) (cache : Cache),
    st.done = false →
    st.hasNewData = false →
    st.lastYieldedLength = st.accumulated.length →
    st.error = none →
    (st.accumulated ≠ [] → ∃ p, cacheGet cache sk = some p ∧
      p.accumulated = st.accumulated) →
    extensionOk st.accumulated events = true →
    (runEvents now sk runId st cache events).thrown = none →
    (∃ s, (runEvents now sk runId st cache events).state.accumulated =
        st.accumulated ++ s) ∧
    (runEvents now sk runId st cache events).state.hasNewData = false ∧
    (runEvents now sk runId st cache events).state.lastYieldedLength =
      (runEvents now sk runId st cache events).state.accumulated.length ∧
    (runEvents now sk runId st cache events).state.error = none ∧
    (runEvents now sk runId st cache events).yields.flatten =
      (runEvents now sk runId st cache events).state.accumulated.drop
        st.lastYieldedLength ∧
    [] ∉ (runEvents now sk runId st cache events).yields ∧
    ((runEvents now sk runId st cache events).state.done = false →
      (runEvents now sk runId st cache events).state.accumulated ≠ [] →
      ∃ p, cacheGet (runEvents now sk runId st cache events).cache sk = some p ∧
        p.accumulated = (runEvents now sk runId st cache events).state.accumulated) := by
  induction events with
  | nil =>
    intro st cache hd0 hnf hleq he hc hx ht
    simp only [runEvents]
    refine ⟨⟨[], by simp⟩, hnf, hleq, he, ?_, by simp, fun _ => hc⟩
    rw [hleq, List.drop_length]
    rfl
  | cons evt rest ih =>
    intro st cache hd0 hnf hleq he hc hx ht
    simp only [extensionOk, Bool.and_eq_true] at hx
    obtain ⟨hx1, hx2⟩ := hx
    cases hstate : evt.state with
    | delta =>
      have hl := listenerStep_delta now sk runId st cache evt hstate
      by_cases hg : (extractText evt).length > st.accumulated.length
      · rw [if_pos hg] at hl
        have hT : extractText evt =
            st.accumulated ++ (extractText evt).drop st.accumulated.length := by
          have h1 : (extractText evt).take st.accumulated.length = st.accumulated := by
            rw [if_pos ⟨Or.inl hstate, hg⟩] at hx1
            exact of_decide_eq_true hx1
          conv_lhs => rw [← List.take_append_drop st.accumulated.length (extractText evt)]
          rw [h1]
        have hgt : (extractText evt).length > st.lastYieldedLength := by
          rw [hleq]; exact hg
        have hwk : loopWake (listenerStep now sk runId st cache evt).state =
            ⟨[(extractText evt).drop st.lastYieldedLength],
             { st with lastEventSeq := evt.seq, accumulated := extractText evt,
                       hasNewData := false,
                       lastYieldedLength := (extractText evt).length },
             none⟩ := by
          rw [hl]
          exact loopWake_fresh _ he rfl hgt
        have hw : (loopWake (listenerStep now sk runId st cache evt).state).thrown = none := by
          rw [hwk]
        have hdD : (loopWake (listenerStep now sk runId st cache evt).state).state.done = false := by
          rw [hwk]; exact hd0
        rw [runEvents_cons_go now sk runId st cache evt rest hw hdD] at ht ⊢
        rw [hwk] at ht ⊢
        simp only [hl] at ht ⊢
        have hacc : acceptText st.accumulated evt = extractText evt := by
          unfold acceptText
          rw [if_pos ⟨Or.inl hstate, hg⟩]
        rw [hacc] at hx2
        obtain ⟨⟨s2, hs2⟩, ihnf, ihleq, iherr, ihflat, ihnil, ihcache⟩ :=
          ih { st with lastEventSeq := evt.seq, accumulated := extractText evt,
                       hasNewData := false,
                       lastYieldedLength := (extractText evt).length }
             (saveProgress now cache sk runId (extractText evt) evt.seq)
             hd0 rfl rfl he
             (fun _ => ⟨⟨runId, sk, extractText evt, evt.seq, now⟩,
               cacheGet_set_self cache sk _, rfl⟩)
             hx2 ht
        refine ⟨?_, ihnf, ihleq, iherr, ?_, ?_, ihcache⟩
        · refine ⟨(extractText evt).drop st.accumulated.length ++ s2, ?_⟩
          rw [← List.append_assoc, ← hT]
          exact hs2
        · rw [List.singleton_append, List.flatten_cons, ihflat, hs2]
          rw [List.drop_append_of_le_length (le_of_lt hgt)]
          rw [List.drop_append_of_le_length (le_refl (extractText evt).length)]
          rw [List.drop_length]
          simp
        · intro hmem
          rcases List.mem_append.mp hmem with h | h
          · rw [List.mem_singleton] at h
            have hlen := congrArg List.length h
            rw [List.length_drop] at hlen
            simp at hlen
            omega
          · exact ihnil h
      · rw [if_neg hg] at hl
        have hwk : loopWake (listenerStep now sk runId st cache evt).state =
            ⟨[], { st with lastEventSeq := evt.seq }, none⟩ := by
          rw [hl]
          exact loopWake_rest _ he hnf
        have hw : (loopWake (listenerStep now sk runId st cache evt).state).thrown = none := by
          rw [hwk]
        have hdD : (loopWake (listenerStep now sk runId st cache evt).state).state.done = false := by
          rw [hwk]; exact hd0
        rw [runEvents_cons_go now sk runId st cache evt rest hw hdD] at ht ⊢
        rw [hwk] at ht ⊢
        simp only [hl] at ht ⊢
        have hacc : acceptText st.accumulated evt = st.accumulated := by
          unfold acceptText
          rw [if_neg]
          intro hcc
          exact hg hcc.2
        rw [hacc] at hx2
        obtain ⟨⟨s2, hs2⟩, ihnf, ihleq, iherr, ihflat, ihnil, ihcache⟩ :=
          ih { st with lastEventSeq := evt.seq } cache hd0 hnf hleq he hc hx2 ht
        refine ⟨⟨s2, hs2⟩, ihnf, ihleq, iherr, ?_, ?_, ihcache⟩
        · rw [List.nil_append]
          exact ihflat
        · simpa using ihnil
    | final =>
      have hl := listenerStep_final now sk runId st cache evt hstate
      by_cases hg : (extractText evt).length > st.accumulated.length
      · rw [if_pos hg] at hl
        have hT : extractText evt =
            st.accumulated ++ (extractText evt).drop st.accumulated.length := by
          have h1 : (extractText evt).take st.accumulated.length = st.accumulated := by
            rw [if_pos ⟨Or.inr hstate, hg⟩] at hx1
            exact of_decide_eq_true hx1
          conv_lhs => rw [← List.take_append_drop st.accumulated.length (extractText evt)]
          rw [h1]
        have hgt : (extractText evt).length > st.lastYieldedLength := by
          rw [hleq]; exact hg
        have hwk : loopWake (listenerStep now sk runId st cache evt).state =
            ⟨[(extractText evt).drop st.lastYieldedLength],
             { st with lastEventSeq := evt.seq, accumulated := extractText evt,
                       hasNewData := false, done := true,
                       lastYieldedLength := (extractText evt).length },
             none⟩ := by
          rw [hl]
          exact loopWake_fresh _ he rfl hgt
        have hw : (loopWake (listenerStep now sk runId st cache evt).state).thrown = none := by
          rw [hwk]
        have hdD : (loopWake (listenerStep now sk runId st cache evt).state).state.done = true := by
          rw [hwk]
        rw [runEvents_cons_done now sk runId st cache evt rest hw hdD]
        rw [hwk]
        simp only [hl]
        refine ⟨⟨(extractText evt).drop st.accumulated.length, hT⟩, by trivial, by trivial, he, by simp, ?_, ?_⟩
        · intro hmem
          rw [List.mem_singleton] at hmem
          have hlen := congrArg List.length hmem
          rw [List.length_drop] at hlen
          simp at hlen
          omega
        · intro h
          exact absurd h (by simp)
      · rw [if_neg hg] at hl
        have hwk : loopWake (listenerStep now sk runId st cache evt).state =
            ⟨[], { st with lastEventSeq := evt.seq, done := true }, none⟩ := by
          rw [hl]
          exact loopWake_rest _ he hnf
        have hw : (loopWake (listenerStep now sk runId st cache evt).state).thrown = none := by
          rw [hwk]
        have hdD : (loopWake (listenerStep now sk runId st cache evt).state).state.done = true := by
          rw [hwk]
        rw [runEvents_cons_done now sk runId st cache evt rest hw hdD]
        rw [hwk]
        simp only [hl]
        refine ⟨⟨[], by simp⟩, hnf, hleq, he, ?_, by simp, ?_⟩
        · rw [hleq, List.drop_length]
          rfl
        · intro h
          exact absurd h (by simp)
    | aborted =>
      have hl := listenerStep_aborted now sk runId st cache evt hstate
      have hwk : loopWake (listenerStep now sk runId st cache evt).state =
          ⟨[], { st with lastEventSeq := evt.seq, done := true }, none⟩ := by
        rw [hl]
        exact loopWake_rest _ he hnf
      have hw : (loopWake (listenerStep now sk runId st cache evt).state).thrown = none := by
        rw [hwk]
      have hdD : (loopWake (listenerStep now sk runId st cache evt).state).state.done = true := by
        rw [hwk]
      rw [runEvents_cons_done now sk runId st cache evt rest hw hdD]
      rw [hwk]
      simp only [hl]
      refine ⟨⟨[], by simp⟩, hnf, hleq, he, ?_, by simp, ?_⟩
      · rw [hleq, List.drop_length]
        rfl
      · intro h
        exact absurd h (by simp)
    | error =>
      have hl := listenerStep_error now sk runId st cache evt hstate
      by_cases ha : st.accumulated.length > 0
      · rw [if_pos ha] at hl
        have hwk : loopWake (listenerStep now sk runId st cache evt).state =
            ⟨[], { st with lastEventSeq := evt.seq, disconnectedWithData := true,
                           done := true }, none⟩ := by
          rw [hl]
          exact loopWake_rest _ he hnf
        have hw : (loopWake (listenerStep now sk runId st cache evt).state).thrown = none := by
          rw [hwk]
        have hdD : (loopWake (listenerStep now sk runId st cache evt).state).state.done = true := by
          rw [hwk]
        rw [runEvents_cons_done now sk runId st cache evt rest hw hdD]
        rw [hwk]
        simp only [hl]
        refine ⟨⟨[], by simp⟩, hnf, hleq, he, ?_, by simp, ?_⟩
        · rw [hleq, List.drop_length]
          rfl
        · intro h
          exact absurd h (by simp)
      · rw [if_neg ha] at hl
        have hanil : st.accumulated = [] := by
          cases hcc : st.accumulated with
          | nil => rfl
          | cons c cs => rw [hcc] at ha; simp at ha
        have hwk : loopWake (listenerStep now sk runId st cache evt).state =
            ⟨[], { st with lastEventSeq := evt.seq,
                           error := some (evt.errorMessage.getD "chat error"),
                           done := true },
             some (evt.errorMessage.getD "chat error")⟩ := by
          rw [hl]
          exact loopWake_throw _ _ rfl hanil
        have hw : (loopWake (listenerStep now sk runId st cache evt).state).thrown =
            some (evt.errorMessage.getD "chat error") := by
          rw [hwk]
        rw [runEvents_cons_throw now sk runId st cache evt rest _ hw] at ht
        simp at ht

/-- Invariant of the consume loop at its rest points that holds for
arbitrary event texts (no full-transcript extension assumption): along a
run that does not throw, all delivered data has been yielded, no error is
stored, and the Progress Cache entry of the session tracks the
accumulated text. -/
theorem runEvents_inv_basic (now : Int) (sk runId : String) (events : List ChatEvent) :
    ∀ (st : StreamState) (cache : Cache),
    st.done = false →
    st.hasNewData = false →
    st.lastYieldedLength = st.accumulated.length →
    st.error = none →
    (st.accumulated ≠ [] → ∃ p, cacheGet cache sk = some p ∧
      p.accumulated = st.accumulated) →
    (runEvents now sk runId st cache events).thrown = none →
    (runEvents now sk runId st cache events).state.hasNewData = false ∧
    (runEvents now sk runId st cache events).state.lastYieldedLength =
      (runEvents now sk runId st cache events).state.accumulated.length ∧
    (runEvents now sk runId st cache events).state.error = none ∧
    ((runEvents now sk runId st cache events).state.done = false →
      (runEvents now sk runId st cache events).state.accumulated ≠ [] →
      ∃ p, cacheGet (runEvents now sk runId st cache events).cache sk = some p ∧
        p.accumulated = (runEvents now sk runId st cache events).state.accumulated) := by
  induction events with
  | nil =>
    intro st cache hd0 hnf hleq he hc ht
    simp only [runEvents]
    exact ⟨hnf, hleq, he, fun _ => hc⟩
  | cons evt rest ih =>
    intro st cache hd0 hnf hleq he hc ht
    cases hstate : evt.state with
    | delta =>
      have hl := listenerStep_delta now sk runId st cache evt hstate
      by_cases hg : (extractText evt).length > st.accumulated.length
      · rw [if_pos hg] at hl
        have hgt : (extractText evt).length > st.lastYieldedLength := by
          rw [hleq]; exact hg
        have hwk : loopWake (listenerStep now sk runId st cache evt).state =
            ⟨[(extractText evt).drop st.lastYieldedLength],
             { st with lastEventSeq := evt.seq, accumulated := extractText evt,
                       hasNewData := false,
                       lastYieldedLength := (extractText evt).length },
             none⟩ := by
          rw [hl]
          exact loopWake_fresh _ he rfl hgt
        have hw : (loopWake (listenerStep now sk runId st cache evt).state).thrown = none := by
          rw [hwk]
        have hdD : (loopWake (listenerStep now sk runId st cache evt).state).state.done = false := by
          rw [hwk]; exact hd0
        rw [runEvents_cons_go now sk runId st cache evt rest hw hdD] at ht ⊢
        rw [hwk] at ht ⊢
        simp only [hl] at ht ⊢
        obtain ⟨ihnf, ihleq, iherr, ihcache⟩ :=
          ih { st with lastEventSeq := evt.seq, accumulated := extractText evt,
                       hasNewData := false,
                       lastYieldedLength := (extractText evt).length }
             (saveProgress now cache sk runId (extractText evt) evt.seq)
             hd0 rfl rfl he
             (fun _ => ⟨⟨runId, sk, extractText evt, evt.seq, now⟩,
               cacheGet_set_self cache sk _, rfl⟩)
             ht
        exact ⟨ihnf, ihleq, iherr, ihcache⟩
      · rw [if_neg hg] at hl
        have hwk : loopWake (listenerStep now sk runId st cache evt).state =
            ⟨[], { st with lastEventSeq := evt.seq }, none⟩ := by
          rw [hl]
          exact loopWake_rest _ he hnf
        have hw : (loopWake (listenerStep now sk runId st cache evt).state).thrown = none := by
          rw [hwk]
        have hdD : (loopWake (listenerStep now sk runId st cache evt).state).state.done = false := by
          rw [hwk]; exact hd0
        rw [runEvents_cons_go now sk runId st cache evt rest hw hdD] at ht ⊢
        rw [hwk] at ht ⊢
        simp only [hl] at ht ⊢
        obtain ⟨ihnf, ihleq, iherr, ihcache⟩ :=
          ih { st with lastEventSeq := evt.seq } cache hd0 hnf hleq he hc ht
        exact ⟨ihnf, ihleq, iherr, ihcache⟩
    | final =>
      have hl := listenerStep_final now sk runId st cache evt hstate
      by_cases hg : (extractText evt).length > st.accumulated.length
      · rw [if_pos hg] at hl
        have hgt : (extractText evt).length > st.lastYieldedLength := by
          rw [hleq]; exact hg
        have hwk : loopWake (listenerStep now sk runId st cache evt).state =
            ⟨[(extractText evt).drop st.lastYieldedLength],
             { st with lastEventSeq := evt.seq, accumulated := extractText evt,
                       hasNewData := false, done := true,
                       lastYieldedLength := (extractText evt).length },
             none⟩ := by
          rw [hl]
          exact loopWake_fresh _ he rfl hgt
        have hw : (loopWake (listenerStep now sk runId st cache evt).state).thrown = none := by
          rw [hwk]
        have hdD : (loopWake (listenerStep now sk runId st cache evt).state).state.done = true := by
          rw [hwk]
        rw [runEvents_cons_done now sk runId st cache evt rest hw hdD]
        rw [hwk]
        simp only [hl]
        refine ⟨by trivial, by trivial, he, ?_⟩
        intro h
        exact absurd h (by simp)
      · rw [if_neg hg] at hl
        have hwk : loopWake (listenerStep now sk runId st cache evt).state =
            ⟨[], { st with lastEventSeq := evt.seq, done := true }, none⟩ := by
          rw [hl]
          exact loopWake_rest _ he hnf
        have hw : (loopWake (listenerStep now sk runId st cache evt).state).thrown = none := by
          rw [hwk]
        have hdD : (loopWake (listenerStep now sk runId st cache evt).state).state.done = true := by
          rw [hwk]
        rw [runEvents_cons_done now sk runId st cache evt rest hw hdD]
        rw [hwk]
        simp only [hl]
        refine ⟨hnf, hleq, he, ?_⟩
        intro h
        exact absurd h (by simp)
    | aborted =>
      have hl := listenerStep_aborted now sk runId st cache evt hstate
      have hwk : loopWake (listenerStep now sk runId st cache evt).state =
          ⟨[], { st with lastEventSeq := evt.seq, done := true }, none⟩ := by
        rw [hl]
        exact loopWake_rest _ he hnf
      have hw : (loopWake (listenerStep now sk runId st cache evt).state).thrown = none := by
        rw [hwk]
      have hdD : (loopWake (listenerStep now sk runId st cache evt).state).state.done = true := by
        rw [hwk]
      rw [runEvents_cons_done now sk runId st cache evt rest hw hdD]
      rw [hwk]
      simp only [hl]
      refine ⟨hnf, hleq, he, ?_⟩
      intro h
      exact absurd h (by simp)
    | error =>
      have hl := listenerStep_error now sk runId st cache evt hstate
      by_cases ha : st.accumulated.length > 0
      · rw [if_pos ha] at hl
        have hwk : loopWake (listenerStep now sk runId st cache evt).state =
            ⟨[], { st with lastEventSeq := evt.seq, disconnectedWithData := true,
                           done := true }, none⟩ := by
          rw [hl]
          exact loopWake_rest _ he hnf
        have hw : (loopWake (listenerStep now sk runId st cache evt).state).thrown = none := by
          rw [hwk]
        have hdD : (loopWake (listenerStep now sk runId st cache evt).state).state.done = true := by
          rw [hwk]
        rw [runEvents_cons_done now sk runId st cache evt rest hw hdD]
        rw [hwk]
        simp only [hl]
        refine ⟨hnf, hleq, he, ?_⟩
        intro h
        exact absurd h (by simp)
      · rw [if_neg ha] at hl
        have hanil : st.accumulated = [] := by
          cases hcc : st.accumulated with
          | nil => rfl
          | cons c cs => rw [hcc] at ha; simp at ha
        have hwk : loopWake (listenerStep now sk runId st cache evt).state =
            ⟨[], { st with lastEventSeq := evt.seq,
                           error := some (evt.errorMessage.getD "chat error"),
                           done := true },
             some (evt.errorMessage.getD "chat error")⟩ := by
          rw [hl]
          exact loopWake_throw _ _ rfl hanil
        have hw : (loopWake (listenerStep now sk runId st cache evt).state).thrown =
            some (evt.errorMessage.getD "chat error") := by
          rw [hwk]
        rw [runEvents_cons_throw now sk runId st cache evt rest _ hw] at ht
        simp at ht

/-! ### Client state lemmas -/

theorem find?_key_filter_ne {α : Type} (l : List (String × α)) (id : String) :
    (l.filter (fun q => q.1 != id)).find? (fun p => p.1 == id) = none := by
  induction l with
  | nil => rfl
  | cons p rest ih =>
    by_cases h : p.1 = id
    · simp only [List.filter_cons, h, bne_self_eq_false, Bool.false_eq_true, if_false]
      exact ih
    · have hb : (p.1 != id) = true := by simpa using h
      simp only [List.filter_cons, hb, if_true]
      rw [List.find?_cons_of_neg _ (by simpa using h)]
      exact ih

theorem applyAct_closed (st : ClientState) (h : st.closed = true) (a : Act) :
    (applyAct st a).1.closed = true ∧ (applyAct st a).2 = none := by
  cases a with
  | connectCall =>
    by_cases hcon : st.connected = true <;>
      simp [applyAct, connect, hcon, h]
  | connectSucceedAct =>
    cases hcp : st.connectPromise <;>
      simp [applyAct, doConnectSucceed, hcp, h]
  | connectFailAct => simp [applyAct, doConnectFail, h]
  | socketClosedAct => simp [applyAct, handleClose, flushPending, h]
  | reconnectTimerFireAct =>
    by_cases hcon : st.connected = true <;>
      simp [applyAct, reconnectTimerFire, connect, hcon, h]
  | closeCall => simp [applyAct, close, flushPending]
  | requestCall id method =>
    by_cases hws : st.wsReady = true <;>
      simp [applyAct, request, hws, h]
  | requestTimeoutAct id =>
    cases hf : st.pending.find? (fun p => p.1 == id) <;>
      simp [applyAct, requestTimeoutFire, hf, h]
  | resFrameAct f =>
    cases hf : st.pending.find? (fun p => p.1 == f.id) with
    | none => simp [applyAct, handleResFrame, hf, h]
    | some q =>
      by_cases hok : f.ok = true <;>
        simp [applyAct, handleResFrame, hf, hok, h]
  | eventFrameAct f =>
    cases hs : f.seq <;> simp [applyAct, handleEventFrame, hs, h]
  | listenerRegister runId => simp [applyAct, h]
  | listenerRemove runId => simp [applyAct, h]

theorem applyTrace_closed (acts : List Act) :
    ∀ (st : ClientState), st.closed = true → (applyTrace st acts).2 = [] := by
  induction acts with
  | nil => intro st _; rfl
  | cons a rest ih =>
    intro st h
    obtain ⟨h1, h2⟩ := applyAct_closed st h a
    simp only [applyTrace]
    rw [h2, ih _ h1]
    rfl

/-! ### Concrete event fixtures for witnesses and counterexamples -/

/-- A delta/final chat event carrying one text content part. -/
def textEventFixture (runId : String) (t : Str) (s : Int) (state : ChatState) :
    ChatEvent :=
  { runId := runId
    sessionKey := "s1"
    seq := s
    state := state
    message := some { role := "assistant",
                      content := [{ type := "text", text := some t }] }
    errorMessage := none }

/-- The synthetic `error` event `handleClose` delivers to listeners. -/
def errorEventFixture : ChatEvent :=
  { runId := "r"
    sessionKey := ""
    seq := -1
    state := ChatState.error
    message := none
    errorMessage := some "WebSocket connection closed unexpectedly" }

/-! ### Claim theorems: connection lifecycle -/

/-- C10: `close()` does not modify the `connected` flag: if the client was
connected when `close()` was called, `isConnected()` still returns `true`
immediately after `close()` returns, and only the later handling of the
socket's close event (`handleClose`) resets the flag to `false`. -/
theorem close_keeps_connected_flag (st : ClientState) (h : st.connected = true) :
    (close st).1.connected = st.connected ∧
    isConnected (close st).1 = true ∧
    (handleClose (close st).1).state.connected = false := by
  refine ⟨rfl, ?_, ?_⟩
  · simp [close, flushPending, isConnected, h]
  · simp [close, flushPending, handleClose, scheduleReconnect]

/-- Witness for C10 at a concrete connected client. -/
theorem close_keeps_connected_flag_witness :
    (close (doConnectSucceed (connect initClient).1)).1.connected =
        (doConnectSucceed (connect initClient).1).connected ∧
      isConnected (close (doConnectSucceed (connect initClient).1)).1 = true ∧
      (handleClose
          (close (doConnectSucceed (connect initClient).1)).1).state.connected = false :=
  close_keeps_connected_flag (doConnectSucceed (connect initClient).1) (by decide)

/-- C7: `close()` marks the client closed, cancels any reconnect timer,
tears the socket down, rejects all `N` pending requests with a
"client closed" error, and no reconnect is ever scheduled afterwards
(over any sequence of subsequent transitions). -/
theorem close_flushes_pending_no_reconnect (st : ClientState) :
    (close st).1.closed = true ∧
    (close st).1.reconnectTimer = false ∧
    (close st).1.wsReady = false ∧
    (close st).1.pending = [] ∧
    (close st).2 = st.pending.map (fun p => ⟨p.1, "client closed"⟩) ∧
    (close st).2.length = st.pending.length ∧
    ∀ acts : List Act, (applyTrace (close st).1 acts).2 = [] := by
  refine ⟨rfl, rfl, rfl, rfl, rfl, by simp [close, flushPending], ?_⟩
  intro acts
  exact applyTrace_closed acts _ rfl

/-- C8 counterexample: a client that connected successfully and was then
closed (before the socket's close event is handled) is explicitly closed,
yet `connect()` returns as a no-op instead of failing, because the
`connected` check precedes the `closed` check. -/
theorem connect_closed_noop_counterexample :
    (close (doConnectSucceed (connect initClient).1)).1.closed = true ∧
    connect (close (doConnectSucceed (connect initClient).1)).1 =
      ((close (doConnectSucceed (connect initClient).1)).1,
       ConnectOutcome.noop) := by
  decide

/-- C8 (amended): `connect()` is a no-op whenever the client is marked
connected (even if also closed); it fails with an error whenever the
client is closed and not marked connected; a caller arriving while an
attempt is in flight joins that same attempt; and a caller starting an
attempt records it so that the next concurrent caller joins exactly that
attempt. -/
theorem connect_dedup_contract (st : ClientState) (k : Nat) :
    connect { st with connected := true } = ({ st with connected := true }, .noop) ∧
    connect { st with connected := false, closed := true } =
      ({ st with connected := false, closed := true },
       .failClosed "client is closed") ∧
    connect { st with connected := false, closed := false,
                      connectPromise := some k } =
      ({ st with connected := false, closed := false, connectPromise := some k },
       .join k) ∧
    ((connect { st with connected := false, closed := false, connectPromise := none }).2 = .start st.nextAttemptId ∧
      (connect { st with connected := false, closed := false, connectPromise := none }).1.connectPromise = some st.nextAttemptId ∧
      connect (connect { st with connected := false, closed := false, connectPromise := none }).1 =
        ((connect { st with connected := false, closed := false, connectPromise := none }).1,
         .join st.nextAttemptId)) := by
  refine ⟨by simp [connect], by simp [connect], by simp [connect], ?_, ?_, ?_⟩ <;>
    simp [connect]

/-! ### Backoff lemmas -/

theorem failedReconnectCycle_eq (st : ClientState) (hti : st.reconnectTimer = true)
    (hcl : st.closed = false) (hcon : st.connected = false) :
    (failedReconnectCycle st).2 = some st.backoffMs ∧
    (failedReconnectCycle st).1.backoffMs = min (st.backoffMs * 2) 30000 ∧
    (failedReconnectCycle st).1.reconnectTimer = true ∧
    (failedReconnectCycle st).1.closed = false ∧
    (failedReconnectCycle st).1.connected = false := by
  unfold failedReconnectCycle reconnectTimerFire connect doConnectFail handleClose
    flushPending scheduleReconnect
  cases hcp : st.connectPromise <;> simp [hti, hcl, hcon, hcp]

theorem failedReconnectAttempts_eq (n : Nat) :
    ∀ (st : ClientState), st.reconnectTimer = true → st.closed = false →
    st.connected = false →
    (failedReconnectAttempts st n).2 = doubleCapSeq st.backoffMs n := by
  induction n with
  | zero => intro st _ _ _; rfl
  | succ n ih =>
    intro st h1 h2 h3
    obtain ⟨e1, e2, e3, e4, e5⟩ := failedReconnectCycle_eq st h1 h2 h3
    simp only [failedReconnectAttempts]
    rw [e1, ih _ e3 e4 e5, e2]
    simp [doubleCapSeq]

/-- C4: after an unexpected disconnect, the delays scheduled before
successive reconnect attempts follow the doubling progression capped at
30000 ms (concretely `1000, 2000, 4000, 8000, 16000, 30000, 30000` for the
first seven attempts); a successful reconnect resets the backoff to
1000 ms whatever it had grown to, so the next disconnect schedules a
1000 ms delay again; and scheduling is a no-op while a reconnect timer is
already pending, so at most one reconnect timer exists at a time. -/
theorem reconnect_backoff_progression (st : ClientState)
    (hb : st.backoffMs = 1000) (hti : st.reconnectTimer = false)
    (hcl : st.closed = false) :
    disconnectThenFailures st 6 = [1000, 2000, 4000, 8000, 16000, 30000, 30000] ∧
    (∀ n, disconnectThenFailures st n = doubleCapSeq 1000 (n + 1)) ∧
    (∀ st' : ClientState, st'.connectPromise.isSome = true → st'.closed = false →
      st'.reconnectTimer = false →
      (doConnectSucceed st').backoffMs = 1000 ∧
      (handleClose (doConnectSucceed st')).scheduledDelay = some 1000) ∧
    (∀ st' : ClientState, st'.reconnectTimer = true →
      scheduleReconnect st' = (st', none)) := by
  have hd : (handleClose st).scheduledDelay = some st.backoffMs := by
    unfold handleClose flushPending scheduleReconnect
    simp [hcl, hti]
  have hsts : (handleClose st).state =
      { st with connected := false, disconnected := true, wsReady := false,
                pending := [], reconnectTimer := true,
                backoffMs := min (st.backoffMs * 2) 30000 } := by
    unfold handleClose flushPending scheduleReconnect
    simp [hcl, hti]
  have hmain : ∀ n, disconnectThenFailures st n = doubleCapSeq 1000 (n + 1) := by
    intro n
    simp only [disconnectThenFailures]
    rw [hd, hsts,
      failedReconnectAttempts_eq n
        { st with connected := false, disconnected := true, wsReady := false,
                  pending := [], reconnectTimer := true,
                  backoffMs := min (st.backoffMs * 2) 30000 }
        rfl hcl rfl]
    simp [hb, doubleCapSeq]
  refine ⟨?_, hmain, ?_, ?_⟩
  · rw [hmain 6]
    decide
  · intro st' h1 h2 h3
    constructor
    · unfold doConnectSucceed
      rw [if_pos h1]
    · unfold doConnectSucceed handleClose flushPending scheduleReconnect
      simp [h1, h2, h3]
  · intro st' h
    unfold scheduleReconnect
    simp [h]

/-- Witness for C4 at a freshly constructed client, with the backoff
reset exercised from a client whose backoff had grown to the 30000 ms
cap. -/
theorem reconnect_backoff_progression_witness :
    disconnectThenFailures initClient 6 =
        [1000, 2000, 4000, 8000, 16000, 30000, 30000] ∧
      (doConnectSucceed { initClient with backoffMs := 30000, connectPromise := some 0 }).backoffMs = 1000 ∧
      (handleClose (doConnectSucceed { initClient with backoffMs := 30000, connectPromise := some 0 })).scheduledDelay = some 1000 :=
  ⟨(reconnect_backoff_progression initClient rfl rfl rfl).1,
   ((reconnect_backoff_progression initClient rfl rfl rfl).2.2.1
     { initClient with backoffMs := 30000, connectPromise := some 0 }
     (by decide) (by decide) (by decide)).1,
   ((reconnect_backoff_progression initClient rfl rfl rfl).2.2.1
     { initClient with backoffMs := 30000, connectPromise := some 0 }
     (by decide) (by decide) (by decide)).2⟩

/-! ### Claim theorems: correlator and event router -/

/-- C5: a request issued over an open socket registers a pending entry
with the fixed 30 s timeout under the supplied fresh correlation id (all
other entries unchanged); when the timeout fires with the entry still
pending, the entry is removed and the caller rejected with a timeout
error while every other entry survives; and a response frame whose id
matches no pending entry — in particular a late response arriving after
its timeout removed the entry — is silently dropped, leaving the state
unchanged. -/
theorem request_correlation_contract (st : ClientState) (id method : String)
    (pe : String × PendingEntry) (f : ResFrame) :
    (st.wsReady = true →
      request st id method =
        .ok { st with pending := (id, ⟨method, 30000⟩) :: st.pending } ∧
      ((id, (⟨method, 30000⟩ : PendingEntry)) :: st.pending).find?
          (fun p => p.1 == id) = some (id, ⟨method, 30000⟩)) ∧
    (st.pending.find? (fun p => p.1 == id) = some pe →
      requestTimeoutFire st id =
        ({ st with pending := st.pending.filter (fun q => q.1 != id) },
         some ⟨id, "request timeout: " ++ pe.2.method⟩) ∧
      (∀ q : String × PendingEntry,
        q ∈ (requestTimeoutFire st id).1.pending ↔ q ∈ st.pending ∧ q.1 ≠ id) ∧
      (requestTimeoutFire st id).1.pending.find? (fun p => p.1 == id) = none ∧
      handleResFrame (requestTimeoutFire st id).1
          { f with id := id } = ((requestTimeoutFire st id).1, none)) ∧
    (st.pending.find? (fun p => p.1 == f.id) = none →
      handleResFrame st f = (st, none)) := by
    refine ⟨?_, ?_, ?_⟩
    · intro hws
      refine ⟨by simp [request, hws], ?_⟩
      rw [List.find?_cons_of_pos _ (by simp)]
    · intro hf
      have hstate : requestTimeoutFire st id =
          ({ st with pending := st.pending.filter (fun q => q.1 != id) },
           some ⟨id, "request timeout: " ++ pe.2.method⟩) := by
        unfold requestTimeoutFire
        rw [hf]
      refine ⟨hstate, ?_, ?_, ?_⟩
      · intro q
        rw [hstate]
        simp [List.mem_filter]
      · rw [hstate]
        exact find?_key_filter_ne st.pending id
      · rw [hstate]
        unfold handleResFrame
        rw [show ({ f with id := id } : ResFrame).id = id from rfl,
          find?_key_filter_ne st.pending id]
    · intro hf
      unfold handleResFrame
      rw [hf]

/-- Witness for C5 at a concrete client with one pending request. -/
theorem request_correlation_contract_witness :
    request { initClient with wsReady := true, pending := [("b", ⟨"chat.send", 30000⟩)] } "c" "chat.abort" =
      .ok { initClient with wsReady := true, pending := [("c", ⟨"chat.abort", 30000⟩), ("b", ⟨"chat.send", 30000⟩)] } ∧
    requestTimeoutFire { initClient with wsReady := true, pending := [("b", ⟨"chat.send", 30000⟩)] } "b" =
      ({ initClient with wsReady := true, pending := [] },
       some ⟨"b", "request timeout: chat.send"⟩) ∧
    handleResFrame { initClient with wsReady := true, pending := [("b", ⟨"chat.send", 30000⟩)] } ⟨"z", true, 0, none⟩ =
      ({ initClient with wsReady := true, pending := [("b", ⟨"chat.send", 30000⟩)] }, none) := by
  have h := request_correlation_contract
    { initClient with wsReady := true, pending := [("b", ⟨"chat.send", 30000⟩)] }
    "b" "chat.send" ("b", ⟨"chat.send", 30000⟩) ⟨"z", true, 0, none⟩
  refine ⟨?_, ?_, h.2.2 (by decide)⟩
  · have h2 := (request_correlation_contract
      { initClient with wsReady := true, pending := [("b", ⟨"chat.send", 30000⟩)] }
      "c" "chat.abort" ("b", ⟨"chat.send", 30000⟩) ⟨"z", true, 0, none⟩).1 (by decide)
    exact h2.1
  · have h3 := (h.2.1 (by decide)).1
    simpa using h3

/-- C6: on an event frame carrying a numeric sequence, the cursor is
updated to the new value unconditionally and nothing else of the state
changes; a gap is flagged exactly when the new sequence exceeds the
previous cursor plus one; the delivered payload never depends on the gap
check; and the concrete scenario of sequences 1, 2, 5 on one connection
delivers all three payloads while flagging a gap only at the jump from 2
to 5. -/
theorem event_gap_tolerance (st : ClientState) (f : EventFrame) (s : Int)
    (r : String) (p1 p2 p3 : ChatEvent)
    (hp1 : p1.runId = r) (hp2 : p2.runId = r) (hp3 : p3.runId = r) :
    (f.seq = some s →
      (handleEventFrame st f).1 = { st with lastSeq := some s } ∧
      ((handleEventFrame st f).2.1 = true ↔
        ∃ l, st.lastSeq = some l ∧ s > l + 1) ∧
      (handleEventFrame st f).2.2 =
        (if f.event = "chat" ∧ f.payload.runId ∈ st.chatListeners
         then some f.payload else none)) ∧
    (handleEventFrames { initClient with chatListeners := [r] }
        [⟨"chat", some 1, p1⟩, ⟨"chat", some 2, p2⟩, ⟨"chat", some 5, p3⟩] =
      ({ initClient with chatListeners := [r], lastSeq := some 5 },
       [false, false, true], [some p1, some p2, some p3])) := by
  constructor
  · intro hs
    refine ⟨?_, ?_, ?_⟩
    · simp [handleEventFrame, hs]
    · cases hl : st.lastSeq with
      | none => simp [handleEventFrame, hs, hl]
      | some l => simp [handleEventFrame, hs, hl]
    · cases hl : st.lastSeq <;> simp [handleEventFrame, hs, hl]
  · simp [handleEventFrames, handleEventFrame, hp1, hp2, hp3, initClient]

/-- Witness for C6 at concrete events. -/
theorem event_gap_tolerance_witness :
    handleEventFrames { initClient with chatListeners := ["r"] }
        [⟨"chat", some 1, errorEventFixture⟩, ⟨"chat", some 2, errorEventFixture⟩,
         ⟨"chat", some 5, errorEventFixture⟩] =
      ({ initClient with chatListeners := ["r"], lastSeq := some 5 },
       [false, false, true],
       [some errorEventFixture, some errorEventFixture, some errorEventFixture]) :=
  (event_gap_tolerance initClient ⟨"chat", some 1, errorEventFixture⟩ 1 "r"
    errorEventFixture errorEventFixture errorEventFixture rfl rfl rfl).2

/-! ### chatStream projection lemmas -/

theorem chatStream_cache (now : Int) (cache0 : Cache) (sk runId : String)
    (events : List ChatEvent) :
    (chatStream now cache0 sk runId events).cache =
      (runEvents now sk runId initStreamState
        (cleanupExpiredProgress now cache0) events).cache := by
  simp only [chatStream, getProgress]
  split_ifs <;> rfl

theorem chatStream_thrown (now : Int) (cache0 : Cache) (sk runId : String)
    (events : List ChatEvent) :
    (chatStream now cache0 sk runId events).thrown =
      (runEvents now sk runId initStreamState
        (cleanupExpiredProgress now cache0) events).thrown := by
  simp only [chatStream, getProgress]
  split_ifs <;> rfl

theorem chatStream_state (now : Int) (cache0 : Cache) (sk runId : String)
    (events : List ChatEvent) :
    (chatStream now cache0 sk runId events).state =
      (runEvents now sk runId initStreamState
        (cleanupExpiredProgress now cache0) events).state := by
  simp only [chatStream, getProgress]
  split_ifs <;> rfl

theorem chatStream_yields_no_flush (now : Int) (cache0 : Cache) (sk runId : String)
    (events : List ChatEvent)
    (h : ¬ (runEvents now sk runId initStreamState
        (cleanupExpiredProgress now cache0) events).state.accumulated.length >
      (runEvents now sk runId initStreamState
        (cleanupExpiredProgress now cache0) events).state.lastYieldedLength) :
    (chatStream now cache0 sk runId events).yields =
      (runEvents now sk runId initStreamState
        (cleanupExpiredProgress now cache0) events).yields := by
  simp only [chatStream, getProgress]
  split_ifs <;> first | rfl | exact absurd ‹_› h

theorem runEvents_single_cache (now : Int) (sk runId : String)
    (st : StreamState) (cache : Cache) (e : ChatEvent) :
    (runEvents now sk runId st cache [e]).cache =
      (listenerStep now sk runId st cache e).cache := by
  simp only [runEvents]
  cases hw : (loopWake (listenerStep now sk runId st cache e).state).thrown with
  | some e' => simp only [hw]
  | none =>
    simp only [hw]
    split <;> rfl

/-! ### Cleanup sweep lemmas -/

theorem cacheGet_cons (q : String × SessionProgress) (rest : Cache) (k : String) :
    cacheGet (q :: rest) k = if q.1 = k then some q.2 else cacheGet rest k := by
  by_cases h : q.1 = k
  · rw [if_pos h]
    unfold cacheGet
    rw [List.find?_cons_of_pos _ (by simpa using h)]
    rfl
  · rw [if_neg h]
    unfold cacheGet
    rw [List.find?_cons_of_neg _ (by simpa using h)]

theorem cleanupExpiredProgress_cons (now : Int) (q : String × SessionProgress)
    (rest : Cache) :
    cleanupExpiredProgress now (q :: rest) =
      if now - q.2.updatedAt > PROGRESS_TTL_MS then cleanupExpiredProgress now rest
      else q :: cleanupExpiredProgress now rest := by
  unfold cleanupExpiredProgress
  rw [List.filter_cons]
  by_cases h : now - q.2.updatedAt > PROGRESS_TTL_MS <;> simp [h]

theorem cacheGet_cleanup_iff (now : Int) (k : String) (p : SessionProgress) :
    ∀ (c : Cache), (c.map Prod.fst).Nodup →
    (cacheGet (cleanupExpiredProgress now c) k = some p ↔
      cacheGet c k = some p ∧ ¬(now - p.updatedAt > PROGRESS_TTL_MS)) := by
  intro c
  induction c with
  | nil => intro _; simp [cacheGet, cleanupExpiredProgress]
  | cons q rest ih =>
    intro hnd
    rw [List.map_cons, List.nodup_cons] at hnd
    obtain ⟨hq, hnd'⟩ := hnd
    rw [cleanupExpiredProgress_cons, cacheGet_cons]
    by_cases hexp : now - q.2.updatedAt > PROGRESS_TTL_MS
    · rw [if_pos hexp]
      by_cases hk : q.1 = k
      · rw [if_pos hk]
        have hnone : cacheGet (cleanupExpiredProgress now rest) k = none := by
          apply cacheGet_eq_none_of_not_mem
          intro hmem
          rcases List.mem_map.mp hmem with ⟨r, hr, hrk⟩
          rcases List.mem_filter.mp hr with ⟨hr1, _⟩
          exact hq (hk ▸ List.mem_map.mpr ⟨r, hr1, hrk⟩)
        rw [hnone]
        constructor
        · intro h; exact Option.noConfusion h
        · rintro ⟨h1, h2⟩
          injection h1 with h1
          rw [h1] at hexp
          exact absurd hexp h2
      · rw [if_neg hk]
        exact ih hnd'
    · rw [if_neg hexp, cacheGet_cons]
      by_cases hk : q.1 = k
      · rw [if_pos hk, if_pos hk]
        constructor
        · intro h
          refine ⟨h, ?_⟩
          injection h with h
          rw [← h]
          exact hexp
        · intro h
          exact h.1
      · rw [if_neg hk, if_neg hk]
        exact ih hnd'

/-! ### Runs with empty accumulation -/

theorem listenerStep_acc_cases (now : Int) (sk runId : String) (st : StreamState)
    (cache : Cache) (evt : ChatEvent) :
    (listenerStep now sk runId st cache evt).state.accumulated = st.accumulated ∨
    (listenerStep now sk runId st cache evt).state.accumulated.length >
      st.accumulated.length := by
  cases hstate : evt.state with
  | delta =>
    rw [listenerStep_delta now sk runId st cache evt hstate]
    by_cases hg : (extractText evt).length > st.accumulated.length
    · rw [if_pos hg]; right; exact hg
    · rw [if_neg hg]; left; rfl
  | final =>
    rw [listenerStep_final now sk runId st cache evt hstate]
    by_cases hg : (extractText evt).length > st.accumulated.length
    · rw [if_pos hg]; right; exact hg
    · rw [if_neg hg]; left; rfl
  | aborted =>
    rw [listenerStep_aborted now sk runId st cache evt hstate]; left; rfl
  | error =>
    rw [listenerStep_error now sk runId st cache evt hstate]
    by_cases ha : st.accumulated.length > 0
    · rw [if_pos ha]; left; rfl
    · rw [if_neg ha]; left; rfl

theorem loopWake_acc (st : StreamState) :
    (loopWake st).state.accumulated = st.accumulated := by
  unfold loopWake
  split_ifs <;> rfl

theorem loopWake_yields_cases (st : StreamState) :
    (loopWake st).yields = [] ∨ st.accumulated.length > st.lastYieldedLength := by
  unfold loopWake
  split_ifs with h1 h2
  · left; rfl
  · right; exact h2.2
  · left; rfl

theorem runEvents_acc_le (now : Int) (sk runId : String) (events : List ChatEvent) :
    ∀ (st : StreamState) (cache : Cache),
    st.accumulated.length ≤
      (runEvents now sk runId st cache events).state.accumulated.length := by
  induction events with
  | nil => intro st cache; simp [runEvents]
  | cons evt rest ih =>
    intro st cache
    have hlst := listenerStep_acc_cases now sk runId st cache evt
    have hlw := loopWake_acc (listenerStep now sk runId st cache evt).state
    simp only [runEvents]
    cases hw : (loopWake (listenerStep now sk runId st cache evt).state).thrown with
    | some e =>
      simp only [hw, hlw]
      rcases hlst with h | h
      · rw [h]
      · exact le_of_lt h
    | none =>
      simp only [hw]
      split
      · rw [hlw]
        rcases hlst with h | h
        · rw [h]
        · exact le_of_lt h
      · refine le_trans ?_ (ih (loopWake (listenerStep now sk runId st cache evt).state).state _)
        rw [hlw]
        rcases hlst with h | h
        · rw [h]
        · exact le_of_lt h

theorem runEvents_nil_acc_yields (now : Int) (sk runId : String)
    (events : List ChatEvent) :
    ∀ (st : StreamState) (cache : Cache),
    (runEvents now sk runId st cache events).state.accumulated = [] →
    (runEvents now sk runId st cache events).yields = [] := by
  induction events with
  | nil => intro st cache _; rfl
  | cons evt rest ih =>
    intro st cache hend
    have hlw := loopWake_acc (listenerStep now sk runId st cache evt).state
    have hy := loopWake_yields_cases (listenerStep now sk runId st cache evt).state
    simp only [runEvents] at hend ⊢
    cases hw : (loopWake (listenerStep now sk runId st cache evt).state).thrown with
    | some e =>
      rw [hw] at hend
      simp only [hw]
      rcases hy with h | h
      · exact h
      · exfalso
        simp only at hend
        rw [hlw] at hend
        rw [hend] at h
        simp at h
    | none =>
      rw [hw] at hend
      simp only [hw] at hend ⊢
      by_cases hd : (loopWake (listenerStep now sk runId st cache evt).state).state.done = true
      · rw [if_pos hd] at hend ⊢
        simp only at hend ⊢
        rcases hy with h | h
        · exact h
        · exfalso
          rw [hlw] at hend
          rw [hend] at h
          simp at h
      · rw [if_neg hd] at hend ⊢
        simp only at hend ⊢
        have hle := runEvents_acc_le now sk runId rest
          (loopWake (listenerStep now sk runId st cache evt).state).state
          (listenerStep now sk runId st cache evt).cache
        rw [hend] at hle
        simp only [List.length_nil, Nat.le_zero, List.length_eq_zero] at hle
        have hwnil : (loopWake (listenerStep now sk runId st cache evt).state).yields = [] := by
          rcases hy with h | h
          · exact h
          · exfalso
            rw [hlw] at hle
            rw [hle] at h
            simp at h
        rw [hwnil, ih _ _ hend]
        rfl

theorem listenerStep_terminal_cache_none (now : Int) (sk runId : String)
    (st : StreamState) (cache : Cache) (e : ChatEvent)
    (hst : e.state = .final ∨ e.state = .aborted) :
    cacheGet (listenerStep now sk runId st cache e).cache sk = none := by
  rcases hst with hst | hst
  · rw [listenerStep_final now sk runId st cache e hst]
    by_cases hg : (extractText e).length > st.accumulated.length
    · rw [if_pos hg]
      exact cacheGet_delete_self _ sk
    · rw [if_neg hg]
      exact cacheGet_delete_self _ sk
  · rw [listenerStep_aborted now sk runId st cache e hst]
    exact cacheGet_delete_self _ sk

/-- C9: a progress lookup (`getProgress`) first sweeps every cached entry
of every session strictly older than the 5-minute TTL and then returns
the possibly absent entry for the requested key; and a stream whose final
event is `final` or `aborted` explicitly clears its session's entry, so
the entry is absent after normal completion. -/
theorem progress_ttl_sweep_and_clear (now : Int) (c : Cache) (sk runId : String)
    (pre : List ChatEvent) (e : ChatEvent) (k : String) (p : SessionProgress) :
    ((c.map Prod.fst).Nodup →
      (cacheGet (getProgress now c sk).1 k = some p ↔
        cacheGet c k = some p ∧ ¬(now - p.updatedAt > PROGRESS_TTL_MS))) ∧
    (getProgress now c sk).2 = cacheGet (cleanupExpiredProgress now c) sk ∧
    ((e.state = .final ∨ e.state = .aborted) →
      (runEvents now sk runId initStreamState
        (cleanupExpiredProgress now c) pre).thrown = none →
      (runEvents now sk runId initStreamState
        (cleanupExpiredProgress now c) pre).state.done = false →
      cacheGet (chatStream now c sk runId (pre ++ [e])).cache sk = none) := by
  refine ⟨?_, rfl, ?_⟩
  · intro hnd
    exact cacheGet_cleanup_iff now k p c hnd
  · intro hst h1 h2
    rw [chatStream_cache,
      runEvents_append now sk runId pre [e] initStreamState
        (cleanupExpiredProgress now c) h1 h2]
    rw [runEvents_single_cache]
    exact listenerStep_terminal_cache_none now sk runId _ _ e hst

/-- Witness for C9: a cache holding one fresh and one expired entry, and
a one-delta stream completed by a `final` event. -/
theorem progress_ttl_sweep_and_clear_witness :
    (cacheGet (getProgress 400000 [("k1", ⟨"r", "k1", "He".data, 1, 350000⟩),
        ("k2", ⟨"r", "k2", [], 1, 0⟩)] "s1").1 "k1" =
        some ⟨"r", "k1", "He".data, 1, 350000⟩ ↔
      cacheGet [("k1", ⟨"r", "k1", "He".data, 1, 350000⟩),
        ("k2", ⟨"r", "k2", [], 1, 0⟩)] "k1" =
          some ⟨"r", "k1", "He".data, 1, 350000⟩ ∧
        ¬((400000 : Int) - 350000 > PROGRESS_TTL_MS)) ∧
    cacheGet (chatStream 400000 [("k1", ⟨"r", "k1", "He".data, 1, 350000⟩),
        ("k2", ⟨"r", "k2", [], 1, 0⟩)] "s1" "r"
      ([textEventFixture "r" "He".data 1 ChatState.delta] ++
        [textEventFixture "r" "He!".data 2 ChatState.final])).cache "s1" = none := by
  have h := progress_ttl_sweep_and_clear 400000
    [("k1", ⟨"r", "k1", "He".data, 1, 350000⟩), ("k2", ⟨"r", "k2", [], 1, 0⟩)]
    "s1" "r" [textEventFixture "r" "He".data 1 ChatState.delta]
    (textEventFixture "r" "He!".data 2 ChatState.final)
    "k1" ⟨"r", "k1", "He".data, 1, 350000⟩
  exact ⟨h.1 (by decide), h.2.2 (Or.inl rfl) (by decide) (by decide)⟩

theorem chatStream_eq_run_of_thrown (now : Int) (cache0 : Cache)
    (sk runId : String) (events : List ChatEvent)
    (h : (runEvents now sk runId initStreamState
      (cleanupExpiredProgress now cache0) events).thrown.isSome = true) :
    chatStream now cache0 sk runId events =
      runEvents now sk runId initStreamState
        (cleanupExpiredProgress now cache0) events := by
  simp only [chatStream, getProgress]
  rw [if_pos h]

/-- C2: a chat event with state `error` delivered to the run's listener
before any text has been accumulated makes the stream fail with the
event's supplied error message, and the caller receives no text
increments at all. -/
theorem error_before_text_hard_failure (now : Int) (cache0 : Cache)
    (sk runId : String) (pre : List ChatEvent) (e : ChatEvent) (m : String)
    (hst : e.state = .error) (hmsg : e.errorMessage = some m)
    (h1 : (runEvents now sk runId initStreamState
      (cleanupExpiredProgress now cache0) pre).thrown = none)
    (h2 : (runEvents now sk runId initStreamState
      (cleanupExpiredProgress now cache0) pre).state.done = false)
    (h3 : (runEvents now sk runId initStreamState
      (cleanupExpiredProgress now cache0) pre).state.accumulated = []) :
    (chatStream now cache0 sk runId (pre ++ [e])).thrown = some m ∧
    (chatStream now cache0 sk runId (pre ++ [e])).yields = [] := by
  set R := runEvents now sk runId initStreamState
    (cleanupExpiredProgress now cache0) pre with hR
  have hyields : R.yields = [] :=
    runEvents_nil_acc_yields now sk runId pre _ _ h3
  have ha : ¬ R.state.accumulated.length > 0 := by
    rw [h3]
    simp
  have hl := listenerStep_error now sk runId R.state R.cache e hst
  rw [if_neg ha] at hl
  have hwk : loopWake (listenerStep now sk runId R.state R.cache e).state =
      ⟨[], { R.state with lastEventSeq := e.seq, error := some (e.errorMessage.getD "chat error"), done := true },
       some (e.errorMessage.getD "chat error")⟩ := by
    rw [hl]
    exact loopWake_throw _ _ rfl h3
  have hw : (loopWake (listenerStep now sk runId R.state R.cache e).state).thrown =
      some (e.errorMessage.getD "chat error") := by rw [hwk]
  have heq : runEvents now sk runId R.state R.cache [e] =
      ⟨[], { R.state with lastEventSeq := e.seq, error := some (e.errorMessage.getD "chat error"), done := true },
       (listenerStep now sk runId R.state R.cache e).cache,
       some (e.errorMessage.getD "chat error")⟩ := by
    rw [runEvents_cons_throw now sk runId R.state R.cache e []
      (e.errorMessage.getD "chat error") hw, hwk]
  have hfull : runEvents now sk runId initStreamState
      (cleanupExpiredProgress now cache0) (pre ++ [e]) =
      ⟨R.yields ++ [],
       { R.state with lastEventSeq := e.seq, error := some (e.errorMessage.getD "chat error"), done := true },
       (listenerStep now sk runId R.state R.cache e).cache,
       some (e.errorMessage.getD "chat error")⟩ := by
    rw [runEvents_append now sk runId pre [e] initStreamState
      (cleanupExpiredProgress now cache0) h1 h2, ← hR, heq]
  have hsome : (runEvents now sk runId initStreamState
      (cleanupExpiredProgress now cache0) (pre ++ [e])).thrown.isSome = true := by
    rw [hfull]
    simp
  constructor
  · rw [chatStream_thrown, hfull]
    show some (e.errorMessage.getD "chat error") = some m
    rw [hmsg]
    rfl
  · rw [chatStream_eq_run_of_thrown now cache0 sk runId (pre ++ [e]) hsome, hfull]
    show R.yields ++ [] = []
    rw [hyields]
    rfl

/-- Witness for C2: the synthetic connection-loss event arriving before
any delta. -/
theorem error_before_text_hard_failure_witness :
    (chatStream 0 [] "s1" "r" ([] ++ [errorEventFixture])).thrown =
      some "WebSocket connection closed unexpectedly" ∧
    (chatStream 0 [] "s1" "r" ([] ++ [errorEventFixture])).yields = [] :=
  error_before_text_hard_failure 0 [] "s1" "r" [] errorEventFixture
    "WebSocket connection closed unexpectedly" rfl rfl (by decide) (by decide)
    (by decide)

/-- C1 counterexample: with delta texts that grow but do not extend one
another ("AB" then "XYZ"), the stream ends a connection-loss error with
text accumulated and without raising — but the concatenated increments
differ from the accumulated text, refuting the claim that the stream
"yields exactly the accumulated text". -/
theorem graceful_yield_counterexample :
    (chatStream 0 [] "s1" "r"
      [textEventFixture "r" "AB".data 1 ChatState.delta,
       textEventFixture "r" "XYZ".data 2 ChatState.delta,
       errorEventFixture]).thrown = none ∧
    (chatStream 0 [] "s1" "r"
      [textEventFixture "r" "AB".data 1 ChatState.delta,
       textEventFixture "r" "XYZ".data 2 ChatState.delta,
       errorEventFixture]).state.accumulated ≠ [] ∧
    (chatStream 0 [] "s1" "r"
      [textEventFixture "r" "AB".data 1 ChatState.delta,
       textEventFixture "r" "XYZ".data 2 ChatState.delta,
       errorEventFixture]).yields.flatten ≠
      (chatStream 0 [] "s1" "r"
        [textEventFixture "r" "AB".data 1 ChatState.delta,
         textEventFixture "r" "XYZ".data 2 ChatState.delta,
         errorEventFixture]).state.accumulated := by
  decide

/-- C1 (amended): when a chat event with state `error` reaches the
listener after text has been accumulated, the stream — unconditionally —
terminates without raising, marks the degraded completion, leaves the
accumulated text unchanged, and keeps the Progress Cache entry for the
session (holding the accumulated text); provided additionally that every
accepted delta/final text extends the previously accumulated text as a
prefix (the full-transcript-so-far protocol), the yielded increments
concatenate to exactly the accumulated text. -/
theorem error_with_text_graceful_degradation (now : Int) (cache0 : Cache)
    (sk runId : String) (pre : List ChatEvent) (e : ChatEvent)
    (hst : e.state = .error)
    (h1 : (runEvents now sk runId initStreamState
      (cleanupExpiredProgress now cache0) pre).thrown = none)
    (h2 : (runEvents now sk runId initStreamState
      (cleanupExpiredProgress now cache0) pre).state.done = false)
    (h3 : (runEvents now sk runId initStreamState
      (cleanupExpiredProgress now cache0) pre).state.accumulated ≠ []) :
    (chatStream now cache0 sk runId (pre ++ [e])).thrown = none ∧
    (chatStream now cache0 sk runId (pre ++ [e])).state.done = true ∧
    (chatStream now cache0 sk runId (pre ++ [e])).state.disconnectedWithData = true ∧
    (chatStream now cache0 sk runId (pre ++ [e])).state.accumulated =
      (runEvents now sk runId initStreamState
        (cleanupExpiredProgress now cache0) pre).state.accumulated ∧
    (∃ p, cacheGet (chatStream now cache0 sk runId (pre ++ [e])).cache sk = some p ∧
      p.accumulated =
        (chatStream now cache0 sk runId (pre ++ [e])).state.accumulated) ∧
    (extensionOk [] pre = true →
      (chatStream now cache0 sk runId (pre ++ [e])).yields.flatten =
        (chatStream now cache0 sk runId (pre ++ [e])).state.accumulated) := by
  set R := runEvents now sk runId initStreamState
    (cleanupExpiredProgress now cache0) pre with hR
  obtain ⟨ihnf, ihleq, iherr, ihcache⟩ :=
    runEvents_inv_basic now sk runId pre initStreamState
      (cleanupExpiredProgress now cache0) rfl rfl rfl rfl
      (fun hne => absurd rfl hne) h1
  obtain ⟨p, hp1, hp2⟩ := ihcache h2 h3
  have ha : R.state.accumulated.length > 0 := by
    cases hacc : R.state.accumulated with
    | nil => exact absurd hacc h3
    | cons c cs => simp
  have hl := listenerStep_error now sk runId R.state R.cache e hst
  rw [if_pos ha] at hl
  have hwk : loopWake (listenerStep now sk runId R.state R.cache e).state =
      ⟨[], { R.state with lastEventSeq := e.seq, disconnectedWithData := true, done := true },
       none⟩ := by
    rw [hl]
    exact loopWake_rest _ iherr ihnf
  have hw : (loopWake (listenerStep now sk runId R.state R.cache e).state).thrown =
      none := by rw [hwk]
  have hdD : (loopWake (listenerStep now sk runId R.state R.cache e).state).state.done =
      true := by rw [hwk]
  have heq : runEvents now sk runId R.state R.cache [e] =
      ⟨[], { R.state with lastEventSeq := e.seq, disconnectedWithData := true, done := true },
       R.cache, none⟩ := by
    rw [runEvents_cons_done now sk runId R.state R.cache e [] hw hdD, hwk, hl]
  have hfull : runEvents now sk runId initStreamState
      (cleanupExpiredProgress now cache0) (pre ++ [e]) =
      ⟨R.yields ++ [],
       { R.state with lastEventSeq := e.seq, disconnectedWithData := true, done := true },
       R.cache, none⟩ := by
    rw [runEvents_append now sk runId pre [e] initStreamState
      (cleanupExpiredProgress now cache0) h1 h2, ← hR, heq]
  have hnoflush : ¬ (runEvents now sk runId initStreamState
      (cleanupExpiredProgress now cache0) (pre ++ [e])).state.accumulated.length >
      (runEvents now sk runId initStreamState
        (cleanupExpiredProgress now cache0)
        (pre ++ [e])).state.lastYieldedLength := by
    rw [hfull]
    show ¬ R.state.accumulated.length > R.state.lastYieldedLength
    rw [ihleq]
    exact lt_irrefl _
  have hys := chatStream_yields_no_flush now cache0 sk runId (pre ++ [e]) hnoflush
  refine ⟨?_, ?_, ?_, ?_, ?_, ?_⟩
  · rw [chatStream_thrown, hfull]
  · rw [chatStream_state, hfull]
  · rw [chatStream_state, hfull]
  · rw [chatStream_state, hfull]
  · refine ⟨p, ?_, ?_⟩
    · rw [chatStream_cache, hfull]
      exact hp1
    · rw [chatStream_state, hfull]
      exact hp2
  · intro hx
    obtain ⟨⟨s, hs⟩, _, _, _, ihflat, _, _⟩ :=
      runEvents_inv now sk runId pre initStreamState
        (cleanupExpiredProgress now cache0) rfl rfl rfl rfl
        (fun hne => absurd rfl hne) hx h1
    rw [hys, chatStream_state, hfull]
    show (R.yields ++ []).flatten = R.state.accumulated
    rw [List.append_nil, ihflat]
    show R.state.accumulated.drop 0 = R.state.accumulated
    exact List.drop_zero _

/-- Witness for C1: delta events building "Hello wor" followed by the
synthetic connection-loss event. -/
theorem error_with_text_graceful_degradation_witness :
    (chatStream 0 [] "s1" "r"
      ([textEventFixture "r" "Hello wor".data 1 ChatState.delta] ++
        [errorEventFixture])).thrown = none ∧
    (chatStream 0 [] "s1" "r"
      ([textEventFixture "r" "Hello wor".data 1 ChatState.delta] ++
        [errorEventFixture])).state.done = true ∧
    (chatStream 0 [] "s1" "r"
      ([textEventFixture "r" "Hello wor".data 1 ChatState.delta] ++
        [errorEventFixture])).state.disconnectedWithData = true ∧
    (chatStream 0 [] "s1" "r"
      ([textEventFixture "r" "Hello wor".data 1 ChatState.delta] ++
        [errorEventFixture])).yields.flatten =
      (chatStream 0 [] "s1" "r"
        ([textEventFixture "r" "Hello wor".data 1 ChatState.delta] ++
          [errorEventFixture])).state.accumulated := by
  have h := error_with_text_graceful_degradation 0 [] "s1" "r"
    [textEventFixture "r" "Hello wor".data 1 ChatState.delta] errorEventFixture
    rfl (by decide) (by decide) (by decide)
  exact ⟨h.1, h.2.1, h.2.2.1, h.2.2.2.2.2 (by decide)⟩

/-- C3 counterexample: a stream receiving full-transcript texts "AB" then
"XYZ" terminates normally (final event) yet the concatenated increments
"ABZ" differ from the final accumulated text "XYZ". -/
theorem stream_concat_counterexample :
    (chatStream 0 [] "s1" "r"
      [textEventFixture "r" "AB".data 1 ChatState.delta,
       textEventFixture "r" "XYZ".data 2 ChatState.final]).thrown = none ∧
    (chatStream 0 [] "s1" "r"
      [textEventFixture "r" "AB".data 1 ChatState.delta,
       textEventFixture "r" "XYZ".data 2 ChatState.final]).state.done = true ∧
    (chatStream 0 [] "s1" "r"
      [textEventFixture "r" "AB".data 1 ChatState.delta,
       textEventFixture "r" "XYZ".data 2 ChatState.final]).yields.flatten ≠
      (chatStream 0 [] "s1" "r"
        [textEventFixture "r" "AB".data 1 ChatState.delta,
         textEventFixture "r" "XYZ".data 2 ChatState.final]).state.accumulated := by
  decide

/-- C3 (amended): for every `chatStream` call that terminates without
error, provided every accepted delta/final text extends the previously
accumulated text as a prefix (the full-transcript-so-far protocol), the
yielded increments concatenated in order equal the final accumulated
text exactly once — every increment is a non-empty fresh suffix, no
character position is re-yielded, and the model's final flush accounts
for any undelivered suffix. -/
theorem stream_increments_concat_once (now : Int) (cache0 : Cache)
    (sk runId : String) (events : List ChatEvent)
    (hx : extensionOk [] events = true)
    (h1 : (runEvents now sk runId initStreamState
      (cleanupExpiredProgress now cache0) events).thrown = none)
    (hdone : (runEvents now sk runId initStreamState
      (cleanupExpiredProgress now cache0) events).state.done = true) :
    (chatStream now cache0 sk runId events).thrown = none ∧
    (chatStream now cache0 sk runId events).yields.flatten =
      (chatStream now cache0 sk runId events).state.accumulated ∧
    [] ∉ (chatStream now cache0 sk runId events).yields := by
  obtain ⟨⟨s, hs⟩, ihnf, ihleq, iherr, ihflat, ihnil, ihcache⟩ :=
    runEvents_inv now sk runId events initStreamState
      (cleanupExpiredProgress now cache0) rfl rfl rfl rfl
      (fun hne => absurd rfl hne) hx h1
  have hnoflush : ¬ (runEvents now sk runId initStreamState
      (cleanupExpiredProgress now cache0) events).state.accumulated.length >
      (runEvents now sk runId initStreamState
        (cleanupExpiredProgress now cache0) events).state.lastYieldedLength := by
    rw [ihleq]
    exact lt_irrefl _
  have hys := chatStream_yields_no_flush now cache0 sk runId events hnoflush
  refine ⟨?_, ?_, ?_⟩
  · rw [chatStream_thrown]
    exact h1
  · rw [hys, chatStream_state, ihflat]
    show (runEvents now sk runId initStreamState
      (cleanupExpiredProgress now cache0) events).state.accumulated.drop 0 =
      (runEvents now sk runId initStreamState
        (cleanupExpiredProgress now cache0) events).state.accumulated
    exact List.drop_zero _
  · rw [hys]
    exact ihnil

/-- Witness for C3: the specification's scenario of deltas "He", "Hello"
and a final "Hello!". -/
theorem stream_increments_concat_once_witness :
    (chatStream 0 [] "s1" "r"
      [textEventFixture "r" "He".data 1 ChatState.delta,
       textEventFixture "r" "Hello".data 2 ChatState.delta,
       textEventFixture "r" "Hello!".data 3 ChatState.final]).thrown = none ∧
    (chatStream 0 [] "s1" "r"
      [textEventFixture "r" "He".data 1 ChatState.delta,
       textEventFixture "r" "Hello".data 2 ChatState.delta,
       textEventFixture "r" "Hello!".data 3 ChatState.final]).yields.flatten =
      (chatStream 0 [] "s1" "r"
        [textEventFixture "r" "He".data 1 ChatState.delta,
         textEventFixture "r" "Hello".data 2 ChatState.delta,
         textEventFixture "r" "Hello!".data 3 ChatState.final]).state.accumulated := by
  have h := stream_increments_concat_once 0 [] "s1" "r"
    [textEventFixture "r" "He".data 1 ChatState.delta,
     textEventFixture "r" "Hello".data 2 ChatState.delta,
     textEventFixture "r" "Hello!".data 3 ChatState.final]
    (by decide) (by decide) (by decide)
  exact ⟨h.1, h.2.1⟩

end GatewayWs
